import Mathlib

/-!
Shallow embedding of the Resource-Management-System sampler core.

Each definition below is translated from one function of the C++ sources:
the Linux CPU sampler (src/core/cpu/cpu_linux.cpp), the Windows CPU sampler
(src/core/cpu/cpu_windows.cpp), the Linux memory sampler
(src/core/memory/memory_linux.cpp), the Windows memory sampler
(src/core/memory/memory_windows.cpp) and the Linux network throughput
estimator (src/core/network/network_linux.cpp).

External data sources (the /proc files, GetSystemTimes, the process scans,
captured frames and elapsed wall-clock durations) are passed to each
operation as explicit inputs; an Option input with value none stands for a
failed read of the source.  Machine unsigned 64-bit arithmetic is modelled
on Nat with explicit reduction modulo 2 ^ 64.  Floating point values are
modelled as exact rationals.
-/

namespace RMS

/-- Word size of the C++ unsigned 64-bit counters (unsigned long long,
uint64_t, ULONGLONG and unsigned long on 64-bit Linux). -/
def u64 : Nat := 2 ^ 64

/-- Wrapping unsigned 64-bit addition. -/
def add64 (a b : Nat) : Nat := (a + b) % u64

/-- Wrapping unsigned 64-bit subtraction, as computed by the C++ operator
minus on two unsigned operands. -/
def sub64 (a b : Nat) : Nat := (a % u64 + u64 - b % u64) % u64

/-- Wrapping sum of a list of unsigned 64-bit values, as computed by
std::accumulate with an unsigned long long initial value of 0. -/
def sum64 (l : List Nat) : Nat := l.foldl add64 0

/-- Capacity of every usage-history buffer: the max_history_size_ constant,
100 in all three samplers that keep a history. -/
def maxHistorySize : Nat := 100

/-- Record one sample into a usage-history buffer: push_back followed by
erasing the first element when the size exceeds max_history_size_.  This
code appears verbatim in LinuxCPU::getTotalUsage, WindowsCPU::updateLoop
and LinuxMemory::updateUsageHistory. -/
def pushHistory (h : List ℚ) (v : ℚ) : List ℚ :=
  let h2 := h ++ [v]
  if maxHistorySize < h2.length then h2.drop 1 else h2

/-! ## Linux CPU sampler (cpu_linux.cpp) -/

/-- Mutable state of a LinuxCPU instance: the delta baselines prev_total_
and prev_idle_ and the usage history.  LinuxCPU starts no background
thread; its state changes only inside getTotalUsage. -/
structure LinuxCPU where
  prev_total_ : Nat
  prev_idle_ : Nat
  usage_history_ : List ℚ
deriving DecidableEq

/-- Idle time as computed by LinuxCPU::getTotalUsage from a /proc/stat
sample: stats[3] + stats[4] (idle + iowait), in unsigned arithmetic. -/
def cpuIdle (stats : List Nat) : Nat := add64 (stats.getD 3 0) (stats.getD 4 0)

/-- Total time as computed by LinuxCPU::getTotalUsage from a /proc/stat
sample: std::accumulate over all parsed fields. -/
def cpuTotal (stats : List Nat) : Nat := sum64 stats

/-- LinuxCPU::getTotalUsage.  The input is the outcome of readCPUStat:
none when the read failed, some stats with the parsed counter fields
otherwise.  Returns the usage percentage together with the successor
state.  Note that the method itself advances the delta baselines and the
history: LinuxCPU has no background update thread. -/
def LinuxCPU.getTotalUsage (s : LinuxCPU) (input : Option (List Nat)) :
    ℚ × LinuxCPU :=
  match input with
  | none => (0, s)
  | some stats =>
    if stats.length < 5 then (0, s)
    else
      let idle := cpuIdle stats
      let total := cpuTotal stats
      let delta_total := sub64 total s.prev_total_
      let delta_idle := sub64 idle s.prev_idle_
      let s1 : LinuxCPU := { s with prev_total_ := total, prev_idle_ := idle }
      if delta_total = 0 then (0, s1)
      else
        let usage : ℚ := ((sub64 delta_total delta_idle : ℚ) / (delta_total : ℚ)) * 100
        (usage, { s1 with usage_history_ := pushHistory s1.usage_history_ usage })

/-- LinuxCPU::getHighestUsage: 0 on an empty history, otherwise the value
of the max_element of the usage history.  The method reads the current
window only; it keeps no separate all-time scalar. -/
def LinuxCPU.getHighestUsage (s : LinuxCPU) : ℚ × LinuxCPU :=
  match s.usage_history_ with
  | [] => (0, s)
  | x :: xs => (xs.foldl max x, s)

/-- LinuxCPU::getAverageUsage: 0 on an empty history, otherwise the
accumulated sum divided by the size. -/
def LinuxCPU.getAverageUsage (s : LinuxCPU) : ℚ × LinuxCPU :=
  if s.usage_history_ = [] then (0, s)
  else (s.usage_history_.foldl (· + ·) 0 / (s.usage_history_.length : ℚ), s)

/-- A sequence of LinuxCPU getTotalUsage calls (each call is itself a
tick), folding the state through the given inputs. -/
def LinuxCPU.runTicks (s : LinuxCPU) (inputs : List (Option (List Nat))) :
    LinuxCPU :=
  inputs.foldl (fun st i => (st.getTotalUsage i).2) s

/-! ## Windows CPU sampler (cpu_windows.cpp) -/

/-- Mutable state of a WindowsCPU instance: the three FILETIME baselines,
the current and highest usage scalars and the usage history.  Mutation
happens only in updateLoop on the background thread. -/
structure WindowsCPU where
  prev_idle_time_ : Nat
  prev_kernel_time_ : Nat
  prev_user_time_ : Nat
  current_usage_ : ℚ
  highest_usage_ : ℚ
  usage_history_ : List ℚ
deriving DecidableEq

/-- WindowsCPU::calculateCPUUsage.  The input is the outcome of
GetSystemTimes: none on failure (return 0 without touching the
baselines), some (idle, kernel, user) otherwise. -/
def WindowsCPU.calculateCPUUsage (s : WindowsCPU)
    (t : Option (Nat × Nat × Nat)) : ℚ × WindowsCPU :=
  match t with
  | none => (0, s)
  | some (idle, kernel, user) =>
    let idleDiff := sub64 idle s.prev_idle_time_
    let kernelDiff := sub64 kernel s.prev_kernel_time_
    let userDiff := sub64 user s.prev_user_time_
    let totalSystem := add64 kernelDiff userDiff
    let totalIdle := idleDiff
    let cpuUsage : ℚ :=
      if 0 < totalSystem then
        (sub64 totalSystem totalIdle : ℚ) * 100 / (totalSystem : ℚ)
      else 0
    (cpuUsage,
     { s with prev_idle_time_ := idle, prev_kernel_time_ := kernel,
              prev_user_time_ := user })

/-- One iteration of WindowsCPU::updateLoop, returning the sample recorded
by that tick together with the successor state: compute the usage, store
it as current_usage_, raise highest_usage_ when exceeded, and push the
sample into the history. -/
def WindowsCPU.updateTickS (s : WindowsCPU) (t : Option (Nat × Nat × Nat)) :
    ℚ × WindowsCPU :=
  let r := s.calculateCPUUsage t
  (r.1,
   { r.2 with
     current_usage_ := r.1,
     highest_usage_ := if r.2.highest_usage_ < r.1 then r.1 else r.2.highest_usage_,
     usage_history_ := pushHistory r.2.usage_history_ r.1 })

/-- One iteration of WindowsCPU::updateLoop, state part only. -/
def WindowsCPU.updateTick (s : WindowsCPU) (t : Option (Nat × Nat × Nat)) :
    WindowsCPU :=
  (s.updateTickS t).2

/-- A sequence of WindowsCPU updateLoop iterations, collecting the list of
samples recorded on the way together with the final state. -/
def WindowsCPU.runTicks : WindowsCPU → List (Option (Nat × Nat × Nat)) →
    List ℚ × WindowsCPU
  | s, [] => ([], s)
  | s, i :: is =>
    let r := s.updateTickS i
    let rest := WindowsCPU.runTicks r.2 is
    (r.1 :: rest.1, rest.2)

/-- WindowsCPU::getTotalUsage: copy current_usage_ out under the lock. -/
def WindowsCPU.getTotalUsage (s : WindowsCPU) : ℚ × WindowsCPU :=
  (s.current_usage_, s)

/-- WindowsCPU::getHighestUsage: copy highest_usage_ out under the lock. -/
def WindowsCPU.getHighestUsage (s : WindowsCPU) : ℚ × WindowsCPU :=
  (s.highest_usage_, s)

/-- WindowsCPU::getAverageUsage: 0 on an empty history, otherwise the
accumulated sum divided by the size. -/
def WindowsCPU.getAverageUsage (s : WindowsCPU) : ℚ × WindowsCPU :=
  if s.usage_history_ = [] then (0, s)
  else (s.usage_history_.foldl (· + ·) 0 / (s.usage_history_.length : ℚ), s)

/-! ## Linux memory sampler (memory_linux.cpp) -/

/-- Parsed content of one /proc/meminfo read, as assigned by
LinuxMemory::readMemInfo: a field that is absent from the file stays at
its reset value 0. -/
structure MemInfo where
  mem_total : Nat
  mem_available : Nat
  mem_free : Nat
  mem_cached : Nat
  mem_buffers : Nat
deriving DecidableEq

/-- Mutable state of a LinuxMemory instance: the cached meminfo fields,
the usage history, and the cached process-to-resident-set map in its
iteration order. -/
structure LinuxMemory where
  mem_total_ : Nat
  mem_available_ : Nat
  mem_free_ : Nat
  mem_cached_ : Nat
  mem_buffers_ : Nat
  usage_history_ : List ℚ
  process_memory_usage_ : List (String × Nat)
deriving DecidableEq

/-- LinuxMemory::readMemInfo.  The input is none when /proc/meminfo could
not be opened (fields untouched); otherwise the parsed fields are stored
and the read is reported successful only when both MemTotal and
MemAvailable are nonzero.  An unsuccessful parse still overwrites the
fields, exactly as in the source. -/
def LinuxMemory.readMemInfo (s : LinuxMemory) (input : Option MemInfo) :
    Bool × LinuxMemory :=
  match input with
  | none => (false, s)
  | some m =>
    let s1 : LinuxMemory :=
      { s with mem_total_ := m.mem_total, mem_available_ := m.mem_available,
               mem_free_ := m.mem_free, mem_cached_ := m.mem_cached,
               mem_buffers_ := m.mem_buffers }
    if m.mem_total = 0 || m.mem_available = 0 then (false, s1) else (true, s1)

/-- LinuxMemory::updateUsageHistory: push the usage percentage
(mem_total_ minus mem_available_, unsigned, over mem_total_, times 100)
into the history. -/
def LinuxMemory.updateUsageHistory (s : LinuxMemory) : LinuxMemory :=
  let usage : ℚ := (sub64 s.mem_total_ s.mem_available_ : ℚ) / (s.mem_total_ : ℚ) * 100
  { s with usage_history_ := pushHistory s.usage_history_ usage }

/-- LinuxMemory::getTotalUsage: re-read /proc/meminfo on the calling
thread, refresh the history on success and return the freshly pushed
sample, or 0 on failure. -/
def LinuxMemory.getTotalUsage (s : LinuxMemory) (input : Option MemInfo) :
    ℚ × LinuxMemory :=
  let r := s.readMemInfo input
  if r.1 then
    let s2 := r.2.updateUsageHistory
    (s2.usage_history_.getLastD 0, s2)
  else (0, r.2)

/-- LinuxMemory::getRemainingRAM: re-read /proc/meminfo and return
mem_available_ converted from KB to MB, or 0 on failure. -/
def LinuxMemory.getRemainingRAM (s : LinuxMemory) (input : Option MemInfo) :
    ℚ × LinuxMemory :=
  let r := s.readMemInfo input
  if r.1 then ((r.2.mem_available_ : ℚ) / 1024, r.2) else (0, r.2)

/-- LinuxMemory::getAverageUsage: 0 on an empty history, otherwise the
accumulated sum divided by the size. -/
def LinuxMemory.getAverageUsage (s : LinuxMemory) : ℚ × LinuxMemory :=
  if s.usage_history_ = [] then (0, s)
  else (s.usage_history_.foldl (· + ·) 0 / (s.usage_history_.length : ℚ), s)

/-- LinuxMemory::readProcessMemoryUsage.  The first input tells whether
the throttle found the cache recent (under 5 seconds old); the second is
the outcome of the /proc scan: none when /proc could not be opened (the
map has already been cleared at that point, as in the source), otherwise
the scanned (name, VmRSS) pairs in the map's iteration order. -/
def LinuxMemory.readProcessMemoryUsage (s : LinuxMemory) (fresh : Bool)
    (scan : Option (List (String × Nat))) : Bool × LinuxMemory :=
  if fresh then (true, s)
  else
    match scan with
    | none => (false, { s with process_memory_usage_ := [] })
    | some procs => (procs ≠ [], { s with process_memory_usage_ := procs })

/-- Selection step of LinuxMemory::getMostUsingProcess: std::max_element
over the process map with the comparator p1.second less-than p2.second.
On a nonempty range this keeps the first element and replaces it only
when a strictly greater value appears. -/
def maxElementByRss (l : List (String × Nat)) : Option (String × Nat) :=
  match l with
  | [] => none
  | x :: xs => some (xs.foldl (fun best p => if best.2 < p.2 then p else best) x)

/-- LinuxMemory::getMostUsingProcess: refresh the process map (subject to
the throttle), then select the max_element.  The selected (name, VmRSS)
pair is returned; the string formatting of the VmRSS value into the
returned text is abstracted away, and none stands for the N/A result. -/
def LinuxMemory.getMostUsingProcess (s : LinuxMemory) (fresh : Bool)
    (scan : Option (List (String × Nat))) :
    Option (String × Nat) × LinuxMemory :=
  let r := s.readProcessMemoryUsage fresh scan
  if r.1 then (maxElementByRss r.2.process_memory_usage_, r.2)
  else (none, r.2)

/-! ## Windows memory sampler (memory_windows.cpp) -/

/-- WindowsMemory::getMostUsingProcess.  The input is the list of (module
base name, WorkingSetSize) pairs of the processes that could be opened
and queried, in EnumProcesses order.  The loop starts from maxMemUsage 0
and the name Unknown and replaces the candidate only on a strictly
greater working-set size. -/
def WindowsMemory.getMostUsingProcess (procs : List (String × Nat)) : String :=
  (procs.foldl (fun best p => if best.2 < p.2 then p else best) ("Unknown", 0)).1

/-! ## Linux network estimator (network_linux.cpp) -/

/-- Mutable state of a LinuxNetwork instance: the interface MAC address
resolved once at startup, the two atomic byte counters written by the
capture callback, and the rate fields guarded by rate_mutex. -/
structure LinuxNetwork where
  mac_address : String
  bytes_sent : Nat
  bytes_received : Nat
  upload_rate : ℚ
  download_rate : ℚ
  highest_upload_rate : ℚ
  highest_download_rate : ℚ
deriving DecidableEq

/-- One captured frame as seen by the packet handler: the six source
hardware-address octets of the Ethernet header and the capture length
field of the packet header. -/
structure Packet where
  srcMac : List Nat
  len : Nat
deriving DecidableEq

/-- One lowercase hexadecimal digit, as produced by the %02x conversion. -/
def hexDigit (n : Nat) : Char :=
  if n < 10 then Char.ofNat (48 + n) else Char.ofNat (87 + n)

/-- Two-digit lowercase hexadecimal rendering of one address octet,
matching snprintf with %02x on an unsigned char. -/
def hex2 (b : Nat) : String :=
  String.mk [hexDigit (b / 16 % 16), hexDigit (b % 16)]

/-- Colon-separated MAC address string, as formatted identically by
LinuxNetwork::getInterfaceMAC and LinuxNetwork::packetHandler. -/
def formatMAC (octets : List Nat) : String :=
  String.intercalate ":" (octets.map hex2)

/-- LinuxNetwork::packetHandler: format the frame's source hardware
address, compare it with the stored interface address, and add the frame
length to bytes_sent on a match or to bytes_received otherwise. -/
def LinuxNetwork.packetHandler (s : LinuxNetwork) (pkt : Packet) : LinuxNetwork :=
  if formatMAC pkt.srcMac = s.mac_address then
    { s with bytes_sent := add64 s.bytes_sent pkt.len }
  else
    { s with bytes_received := add64 s.bytes_received pkt.len }

/-- One iteration of LinuxNetwork::updateRatesPeriodically, with the
elapsed milliseconds since the last update as input.  When the duration
is positive: convert both byte counters to MB per second over the
duration, store them as the current rates, raise the highest rates when
exceeded, and reset both counters to zero.  A non-positive duration
leaves the state untouched. -/
def LinuxNetwork.updateRatesTick (s : LinuxNetwork) (durationMs : Nat) :
    LinuxNetwork :=
  if 0 < durationMs then
    let duration_sec : ℚ := (durationMs : ℚ) / 1000
    let current_upload_rate : ℚ := ((s.bytes_sent : ℚ) / (1024 * 1024)) / duration_sec
    let current_download_rate : ℚ := ((s.bytes_received : ℚ) / (1024 * 1024)) / duration_sec
    { s with
      upload_rate := current_upload_rate,
      download_rate := current_download_rate,
      highest_upload_rate :=
        if s.highest_upload_rate < current_upload_rate then current_upload_rate
        else s.highest_upload_rate,
      highest_download_rate :=
        if s.highest_download_rate < current_download_rate then current_download_rate
        else s.highest_download_rate,
      bytes_sent := 0,
      bytes_received := 0 }
  else s

/-- LinuxNetwork::getTotalBandwidth: a hard-coded placeholder of 1000,
independent of the estimator state and of the monitored interface. -/
def LinuxNetwork.getTotalBandwidth (_s : LinuxNetwork) : ℚ := 1000

/-- LinuxNetwork::getUploadRate: copy upload_rate out under the lock. -/
def LinuxNetwork.getUploadRate (s : LinuxNetwork) : ℚ × LinuxNetwork :=
  (s.upload_rate, s)

/-- LinuxNetwork::getDownloadRate: copy download_rate out under the lock. -/
def LinuxNetwork.getDownloadRate (s : LinuxNetwork) : ℚ × LinuxNetwork :=
  (s.download_rate, s)

/-- LinuxNetwork::getTotalUsedBandwidth: the sum of the two current
rates. -/
def LinuxNetwork.getTotalUsedBandwidth (s : LinuxNetwork) : ℚ × LinuxNetwork :=
  (s.upload_rate + s.download_rate, s)

/-! ## Spec-side characterizations and concrete scenarios -/

/-- Spec-side characterization for the tie-break analysis: the largest
resident-set size appearing in a scan list. -/
def rssMax : List (String × Nat) → Nat
  | [] => 0
  | p :: l => max p.2 (rssMax l)

/-- Spec-side characterization for the tie-break analysis: the first
element of the scan list whose resident-set size reaches the given
bound.  Instantiated with rssMax it names the first-encountered process
attaining the maximum. -/
def firstWithRss (m : Nat) : List (String × Nat) → Option (String × Nat)
  | [] => none
  | p :: l => if m ≤ p.2 then some p else firstWithRss m l

/-- Scenario for the highest-usage analysis: the /proc/stat sample fed to
tick number k of a synthetic session.  Tick 0 shows a fully busy
interval, every later tick a fully idle one. -/
def cptStats (k : Nat) : List Nat := [100, 0, 0, 100 * k, 0]

/-- Scenario for the highest-usage analysis: the first n tick inputs of
the synthetic session, in order. -/
def cptInputs : Nat → List (Option (List Nat))
  | 0 => []
  | n + 1 => cptInputs n ++ [some (cptStats n)]

/-! ## Helper lemmas -/

theorem u64_pos : 0 < u64 := by
  simp [u64]

theorem add64_lt (a b : Nat) : add64 a b < u64 :=
  Nat.mod_lt _ u64_pos

theorem add64_eq (a b : Nat) (h : a + b < u64) : add64 a b = a + b :=
  Nat.mod_eq_of_lt h

theorem sub64_eq (a b : Nat) (ha : a < u64) (hba : b ≤ a) : sub64 a b = a - b := by
  simp only [sub64, u64] at *
  omega

theorem sub64_self (a : Nat) : sub64 a a = 0 := by
  simp only [sub64, u64]
  omega

theorem foldl_add64_lt (l : List Nat) : ∀ init : Nat, init < u64 →
    List.foldl add64 init l < u64 := by
  induction l with
  | nil => intro init h; simpa using h
  | cons a t ih => intro init _; exact ih _ (add64_lt init a)

theorem sum64_lt (l : List Nat) : sum64 l < u64 :=
  foldl_add64_lt l 0 u64_pos

theorem cpuIdle_lt (stats : List Nat) : cpuIdle stats < u64 :=
  add64_lt _ _

theorem cpuTotal_lt (stats : List Nat) : cpuTotal stats < u64 :=
  sum64_lt stats

theorem pushHistory_getLastD (h : List ℚ) (v d : ℚ) :
    (pushHistory h v).getLastD d = v := by
  cases h with
  | nil => simp [pushHistory, maxHistorySize]
  | cons x t =>
    simp only [pushHistory]
    split
    · simp
    · exact List.getLastD_concat d v (x :: t)

theorem pushHistory_getLast_getD (h : List ℚ) (v d : ℚ) :
    (pushHistory h v).getLast?.getD d = v := by
  have hx := pushHistory_getLastD h v d
  simpa [List.getLastD_eq_getLast?] using hx

theorem pushHistory_length_le (h : List ℚ) (v : ℚ) (hle : h.length ≤ 100) :
    (pushHistory h v).length ≤ 100 := by
  simp only [pushHistory, maxHistorySize]
  split
  · simp only [List.length_drop, List.length_append, List.length_cons, List.length_nil]
    omega
  · next hc =>
    simp only [List.length_append, List.length_cons, List.length_nil] at hc ⊢
    omega

theorem foldl_max_init_le (l : List ℚ) : ∀ x : ℚ, x ≤ l.foldl max x := by
  induction l with
  | nil => intro x; simp
  | cons a t ih =>
    intro x
    calc x ≤ max x a := le_max_left x a
    _ ≤ t.foldl max (max x a) := ih (max x a)
    _ = (a :: t).foldl max x := by simp

theorem foldl_max_mem_le (l : List ℚ) : ∀ (x v : ℚ), v ∈ l → v ≤ l.foldl max x := by
  induction l with
  | nil => intro x v hv; cases hv
  | cons a t ih =>
    intro x v hv
    rcases List.mem_cons.mp hv with h | h
    · subst h
      calc v ≤ max x v := le_max_right x v
      _ ≤ t.foldl max (max x v) := foldl_max_init_le t _
      _ = (v :: t).foldl max x := by simp
    · simpa using ih (max x a) v h

theorem foldl_max_replicate_zero (n : Nat) (x : ℚ) (hx : 0 ≤ x) :
    (List.replicate n (0 : ℚ)).foldl max x = x := by
  induction n with
  | zero => simp
  | succ m ih =>
    rw [List.replicate_succ]
    simp only [List.foldl_cons, max_eq_left hx]
    exact ih

theorem foldl_pushHistory_drop (l : List ℚ) :
    List.foldl pushHistory [] l = l.drop (l.length - 100) := by
  induction l using List.reverseRecOn with
  | nil => simp
  | append_singleton t v ih =>
    rw [List.foldl_append, List.foldl_cons, List.foldl_nil, ih]
    by_cases hlen : t.length ≤ 99
    · have h0 : t.length - 100 = 0 := by omega
      rw [h0, List.drop_zero]
      simp only [pushHistory, maxHistorySize, List.length_append, List.length_cons,
        List.length_nil]
      rw [if_neg (by omega)]
      have h1 : t.length + (0 + 1) - 100 = 0 := by omega
      rw [h1, List.drop_zero]
    · push_neg at hlen
      have hd : (t.drop (t.length - 100)).length = 100 := by
        simp only [List.length_drop]; omega
      simp only [pushHistory, maxHistorySize, List.length_append, List.length_cons,
        List.length_nil]
      rw [if_pos (by omega)]
      rw [List.drop_append_of_le_length (by omega : 1 ≤ (t.drop (t.length - 100)).length)]
      rw [List.drop_drop]
      have h2 : t.length + (0 + 1) - 100 = t.length - 100 + 1 := by omega
      rw [h2]
      rw [List.drop_append_of_le_length (by omega : t.length - 100 + 1 ≤ t.length)]

theorem getTotalUsage_prev (s : LinuxCPU) (stats : List Nat)
    (hlen : 5 ≤ stats.length) :
    (s.getTotalUsage (some stats)).2.prev_total_ = cpuTotal stats ∧
    (s.getTotalUsage (some stats)).2.prev_idle_ = cpuIdle stats := by
  simp only [LinuxCPU.getTotalUsage]
  rw [if_neg (by omega)]
  split <;> simp

theorem rssMax_cons (p : String × Nat) (l : List (String × Nat)) :
    rssMax (p :: l) = max p.2 (rssMax l) := rfl

theorem foldl_scan_first (l : List (String × Nat)) :
    ∀ x : String × Nat,
      some (l.foldl (fun best p => if best.2 < p.2 then p else best) x) =
        firstWithRss (rssMax (x :: l)) (x :: l) := by
  induction l with
  | nil =>
    intro x
    simp [firstWithRss, rssMax]
  | cons y t ih =>
    intro x
    by_cases hxy : x.2 < y.2
    · rw [List.foldl_cons, if_pos hxy, ih y]
      have hm : rssMax (x :: y :: t) = rssMax (y :: t) := by
        simp only [rssMax_cons]; omega
      have hx : ¬ rssMax (x :: y :: t) ≤ x.2 := by
        simp only [rssMax_cons]; omega
      rw [show firstWithRss (rssMax (x :: y :: t)) (x :: y :: t) =
            firstWithRss (rssMax (x :: y :: t)) (y :: t) by
          simp only [firstWithRss]; rw [if_neg hx], hm]
    · push_neg at hxy
      rw [List.foldl_cons, if_neg (not_lt.mpr hxy), ih x]
      have hm : rssMax (x :: y :: t) = rssMax (x :: t) := by
        simp only [rssMax_cons]; omega
      by_cases hx : rssMax (x :: t) ≤ x.2
      · simp only [firstWithRss, hm]
        rw [if_pos hx, if_pos hx]
      · have hy : ¬ rssMax (x :: t) ≤ y.2 := by
          simp only [rssMax_cons] at hx ⊢; omega
        simp only [firstWithRss, hm]
        rw [if_neg hx, if_neg hx, if_neg hy]

theorem runTicks_concat (s : LinuxCPU) (l : List (Option (List Nat)))
    (i : Option (List Nat)) :
    LinuxCPU.runTicks s (l ++ [i]) = ((LinuxCPU.runTicks s l).getTotalUsage i).2 := by
  simp [LinuxCPU.runTicks, List.foldl_append]

theorem cptTickEq (n : Nat) (h1 : 1 ≤ n) (h2 : n ≤ 99) (hist : List ℚ)
    (hlen : hist.length = n) :
    LinuxCPU.getTotalUsage ⟨100 * n, 100 * (n - 1), hist⟩ (some (cptStats n)) =
      (0, ⟨100 * (n + 1), 100 * n, hist ++ [(0 : ℚ)]⟩) := by
  have e_idle : cpuIdle (cptStats n) = 100 * n := by
    simp only [cptStats, cpuIdle, add64, u64]
    simp
    omega
  have e_total : cpuTotal (cptStats n) = 100 + 100 * n := by
    simp only [cptStats, cpuTotal, sum64, List.foldl, add64, u64]
    omega
  have e_dt : sub64 (100 + 100 * n) (100 * n) = 100 := by
    simp only [sub64, u64]; omega
  have e_di : sub64 (100 * n) (100 * (n - 1)) = 100 := by
    simp only [sub64, u64]; omega
  simp only [LinuxCPU.getTotalUsage]
  rw [if_neg (by simp [cptStats])]
  rw [e_total, e_idle, e_dt, e_di]
  rw [if_neg (by omega)]
  rw [sub64_self]
  simp only [Nat.cast_zero, zero_div, zero_mul]
  rw [Prod.mk.injEq]
  refine ⟨rfl, ?_⟩
  rw [LinuxCPU.mk.injEq]
  refine ⟨by omega, rfl, ?_⟩
  simp only [pushHistory, maxHistorySize, List.length_append, List.length_cons,
    List.length_nil, hlen]
  rw [if_neg (by omega)]

theorem cptRun : ∀ n, 1 ≤ n → n ≤ 100 →
    LinuxCPU.runTicks ⟨0, 0, []⟩ (cptInputs n) =
      ⟨100 * n, 100 * (n - 1), 100 :: List.replicate (n - 1) (0 : ℚ)⟩ := by
  intro n
  induction n with
  | zero => intro h1 _; exact absurd h1 (by omega)
  | succ m ih =>
    intro _ h2
    by_cases hm : m = 0
    · subst hm
      norm_num [cptInputs, cptStats, LinuxCPU.runTicks, LinuxCPU.getTotalUsage,
        cpuIdle, cpuTotal, sum64, add64, sub64, u64, pushHistory, maxHistorySize]
    · have h1m : 1 ≤ m := by omega
      have hrun := ih h1m (by omega)
      rw [show cptInputs (m + 1) = cptInputs m ++ [some (cptStats m)] from rfl]
      rw [runTicks_concat, hrun]
      have hl : (100 :: List.replicate (m - 1) (0 : ℚ)).length = m := by
        simp only [List.length_cons, List.length_replicate]
        omega
      rw [cptTickEq m h1m (by omega) _ hl]
      have hrep : List.replicate (m - 1) (0 : ℚ) ++ [(0 : ℚ)] =
          List.replicate m (0 : ℚ) := by
        have hm1 : m - 1 + 1 = m := by omega
        rw [← List.replicate_succ', hm1]
      simp only [Nat.add_sub_cancel, List.cons_append, hrep]

theorem cpt101 :
    LinuxCPU.runTicks ⟨0, 0, []⟩ (cptInputs 101) =
      ⟨100 * 101, 100 * 100, List.replicate 100 (0 : ℚ)⟩ := by
  rw [show cptInputs 101 = cptInputs 100 ++ [some (cptStats 100)] from rfl]
  rw [runTicks_concat, cptRun 100 (by omega) (by omega)]
  have e_idle : cpuIdle (cptStats 100) = 10000 := by decide
  have e_total : cpuTotal (cptStats 100) = 10100 := by decide
  have e_dt : sub64 10100 (100 * 100) = 100 := by decide
  have e_di : sub64 10000 (100 * (100 - 1)) = 100 := by decide
  simp only [LinuxCPU.getTotalUsage]
  rw [if_neg (by simp [cptStats])]
  rw [e_total, e_idle, e_dt, e_di]
  rw [if_neg (by omega)]
  rw [sub64_self]
  simp only [Nat.cast_zero, zero_div, zero_mul]
  rw [LinuxCPU.mk.injEq]
  refine ⟨by norm_num, by norm_num, ?_⟩
  simp only [pushHistory, maxHistorySize, List.cons_append, List.length_cons,
    List.length_append, List.length_replicate, List.length_nil]
  rw [if_pos (by omega)]
  rw [List.drop_one]
  simp only [List.tail_cons]
  exact List.replicate_succ' 99 (0 : ℚ) ▸ rfl

theorem calculate_highest_eq (s : WindowsCPU) (t : Option (Nat × Nat × Nat)) :
    (s.calculateCPUUsage t).2.highest_usage_ = s.highest_usage_ := by
  rcases t with _ | ⟨i, k, u⟩ <;> rfl

theorem updateTickS_highest_le (s : WindowsCPU) (t : Option (Nat × Nat × Nat)) :
    s.highest_usage_ ≤ (s.updateTickS t).2.highest_usage_ := by
  simp only [WindowsCPU.updateTickS, calculate_highest_eq]
  split
  · next hlt => exact le_of_lt hlt
  · exact le_refl _

theorem updateTickS_sample_le (s : WindowsCPU) (t : Option (Nat × Nat × Nat)) :
    (s.updateTickS t).1 ≤ (s.updateTickS t).2.highest_usage_ := by
  simp only [WindowsCPU.updateTickS]
  split
  · exact le_refl _
  · next hge => exact le_of_not_lt hge

theorem runTicks_highest_le (inputs : List (Option (Nat × Nat × Nat))) :
    ∀ s : WindowsCPU,
      s.highest_usage_ ≤ (WindowsCPU.runTicks s inputs).2.highest_usage_ := by
  induction inputs with
  | nil => intro s; exact le_refl _
  | cons i is ih =>
    intro s
    calc s.highest_usage_ ≤ (s.updateTickS i).2.highest_usage_ :=
        updateTickS_highest_le s i
    _ ≤ (WindowsCPU.runTicks (s.updateTickS i).2 is).2.highest_usage_ := ih _
    _ = (WindowsCPU.runTicks s (i :: is)).2.highest_usage_ := rfl

theorem runTicks_samples_le (inputs : List (Option (Nat × Nat × Nat))) :
    ∀ (s : WindowsCPU) (v : ℚ),
      v ∈ (WindowsCPU.runTicks s inputs).1 →
      v ≤ (WindowsCPU.runTicks s inputs).2.highest_usage_ := by
  induction inputs with
  | nil => intro s v hv; simp [WindowsCPU.runTicks] at hv
  | cons i is ih =>
    intro s v hv
    have hv2 : v = (s.updateTickS i).1 ∨
        v ∈ (WindowsCPU.runTicks (s.updateTickS i).2 is).1 := by
      simpa [WindowsCPU.runTicks] using hv
    have hrw : (WindowsCPU.runTicks s (i :: is)).2 =
        (WindowsCPU.runTicks (s.updateTickS i).2 is).2 := rfl
    rw [hrw]
    rcases hv2 with h | h
    · subst h
      calc (s.updateTickS i).1 ≤ (s.updateTickS i).2.highest_usage_ :=
          updateTickS_sample_le s i
      _ ≤ (WindowsCPU.runTicks (s.updateTickS i).2 is).2.highest_usage_ :=
          runTicks_highest_le is _
    · exact ih _ v h

/-! ## Claim theorems -/

/-- C10: the Linux network backend's getTotalBandwidth returns the
constant 1000 for every state of the estimator; the advertised capacity
is a hard-coded placeholder not derived from the interface. -/
theorem C10_total_bandwidth_constant (s : LinuxNetwork) :
    s.getTotalBandwidth = 1000 := rfl

/-- C4: the packet classifier compares the frame's formatted source
hardware address with the interface's own address; on a match the sent
counter grows by the frame length and the received counter is untouched,
on a mismatch the received counter grows by the frame length and the
sent counter is untouched. -/
theorem C4_packet_direction (s : LinuxNetwork) (pkt : Packet)
    (hs : s.bytes_sent + pkt.len < u64) (hr : s.bytes_received + pkt.len < u64) :
    (formatMAC pkt.srcMac = s.mac_address →
      (s.packetHandler pkt).bytes_sent = s.bytes_sent + pkt.len ∧
      (s.packetHandler pkt).bytes_received = s.bytes_received) ∧
    (formatMAC pkt.srcMac ≠ s.mac_address →
      (s.packetHandler pkt).bytes_received = s.bytes_received + pkt.len ∧
      (s.packetHandler pkt).bytes_sent = s.bytes_sent) := by
  constructor <;> intro hmac <;>
    simp [LinuxNetwork.packetHandler, hmac, add64_eq _ _ hs, add64_eq _ _ hr]

/-- Witness for C4 at a concrete state and two concrete frames: an
outbound frame from the interface's own address and an inbound one from
a foreign address. -/
theorem C4_witness :
    (LinuxNetwork.packetHandler ⟨"aa:bb:cc:dd:ee:ff", 10, 20, 0, 0, 0, 0⟩
      ⟨[170, 187, 204, 221, 238, 255], 60⟩).bytes_sent = 70 ∧
    (LinuxNetwork.packetHandler ⟨"aa:bb:cc:dd:ee:ff", 10, 20, 0, 0, 0, 0⟩
      ⟨[1, 2, 3, 4, 5, 6], 60⟩).bytes_received = 80 := by
  constructor
  · exact ((C4_packet_direction ⟨"aa:bb:cc:dd:ee:ff", 10, 20, 0, 0, 0, 0⟩
      ⟨[170, 187, 204, 221, 238, 255], 60⟩ (by norm_num [u64]) (by norm_num [u64])).1
      (by decide)).1
  · exact ((C4_packet_direction ⟨"aa:bb:cc:dd:ee:ff", 10, 20, 0, 0, 0, 0⟩
      ⟨[1, 2, 3, 4, 5, 6], 60⟩ (by norm_num [u64]) (by norm_num [u64])).2
      (by decide)).1

/-- C5: a rate tick over a 1000 millisecond window with 3145728 bytes
received and 0 sent computes a download rate of 3 MB per second and an
upload rate of 0, and resets both byte counters to zero. -/
theorem C5_rate_tick (s : LinuxNetwork)
    (hrecv : s.bytes_received = 3145728) (hsent : s.bytes_sent = 0) :
    (s.updateRatesTick 1000).download_rate = 3 ∧
    (s.updateRatesTick 1000).upload_rate = 0 ∧
    (s.updateRatesTick 1000).bytes_received = 0 ∧
    (s.updateRatesTick 1000).bytes_sent = 0 := by
  norm_num [LinuxNetwork.updateRatesTick, hrecv, hsent]

/-- C7: recording samples through the shared history push keeps the
buffer at no more than 100 entries, and a session that starts from an
empty buffer retains exactly the most recent 100 samples in insertion
order (the oldest entry is evicted on each overflow). -/
theorem C7_history_capacity :
    (∀ l : List ℚ, List.foldl pushHistory [] l = l.drop (l.length - 100)) ∧
    (∀ (h : List ℚ) (l : List ℚ), h.length ≤ 100 →
      (List.foldl pushHistory h l).length ≤ 100) := by
  constructor
  · exact foldl_pushHistory_drop
  · intro h l
    induction l generalizing h with
    | nil => intro hh; simpa using hh
    | cons v t ih => intro hh; exact ih _ (pushHistory_length_le h v hh)

/-- Witness for C7: inserting 150 values into an empty buffer leaves
exactly the last 100 of them, and the size bound holds there. -/
theorem C7_witness :
    List.foldl pushHistory [] (List.replicate 150 (7 : ℚ)) =
      (List.replicate 150 (7 : ℚ)).drop 50 ∧
    (List.foldl pushHistory [] (List.replicate 150 (7 : ℚ))).length ≤ 100 := by
  constructor
  · have h := C7_history_capacity.1 (List.replicate 150 (7 : ℚ))
    simpa using h
  · exact C7_history_capacity.2 [] _ (by simp)

/-- C8: a Linux CPU tick with a valid sample, non-wrapping counters and a
positive total delta returns exactly (delta total minus delta idle) over
delta total, times 100, with the deltas taken against the prior tick's
counters. -/
theorem C8_delta_usage (s : LinuxCPU) (stats : List Nat)
    (hlen : 5 ≤ stats.length)
    (hta : s.prev_total_ ≤ cpuTotal stats) (hia : s.prev_idle_ ≤ cpuIdle stats)
    (hdi : cpuIdle stats - s.prev_idle_ ≤ cpuTotal stats - s.prev_total_)
    (hdt : 0 < cpuTotal stats - s.prev_total_) :
    (s.getTotalUsage (some stats)).1 =
      ((cpuTotal stats - s.prev_total_ - (cpuIdle stats - s.prev_idle_) : Nat) : ℚ) /
        ((cpuTotal stats - s.prev_total_ : Nat) : ℚ) * 100 := by
  have e1 : sub64 (cpuTotal stats) s.prev_total_ = cpuTotal stats - s.prev_total_ :=
    sub64_eq _ _ (cpuTotal_lt stats) hta
  have e2 : sub64 (cpuIdle stats) s.prev_idle_ = cpuIdle stats - s.prev_idle_ :=
    sub64_eq _ _ (cpuIdle_lt stats) hia
  have e3 : sub64 (cpuTotal stats - s.prev_total_) (cpuIdle stats - s.prev_idle_) =
      cpuTotal stats - s.prev_total_ - (cpuIdle stats - s.prev_idle_) :=
    sub64_eq _ _ (by have := cpuTotal_lt stats; omega) hdi
  simp only [LinuxCPU.getTotalUsage]
  rw [if_neg (by omega), e1, e2, e3, if_neg (by omega)]

/-- Witness for C8 at the spec's scenario: prior counters (idle 100,
total 200) and current counters (idle 150, total 300) give 50 percent. -/
theorem C8_witness :
    (LinuxCPU.getTotalUsage ⟨200, 100, []⟩ (some [150, 0, 0, 150, 0])).1 = 50 := by
  have h := C8_delta_usage ⟨200, 100, []⟩ [150, 0, 0, 150, 0]
    (by decide) (by decide) (by decide) (by decide) (by decide)
  rw [h]
  norm_num [cpuTotal, cpuIdle, sum64, add64, u64]

/-- C9 as stated is violated by the Windows backend: a tick whose
deltas are all zero still appends the 0 sample to the usage history. -/
theorem C9_cex :
    (WindowsCPU.updateTick ⟨5, 5, 5, 0, 0, []⟩ (some (5, 5, 5))).usage_history_ ≠
      (⟨5, 5, 5, 0, 0, []⟩ : WindowsCPU).usage_history_ := by decide

/-- C9 amended: on a zero total delta the Linux tick returns 0 and leaves
the history unchanged, and the Windows usage computation returns 0
without dividing, but the Windows update loop still records that 0
sample into the history. -/
theorem C9_zero_delta :
    (∀ (s : LinuxCPU) (stats : List Nat), 5 ≤ stats.length →
      sub64 (cpuTotal stats) s.prev_total_ = 0 →
      (s.getTotalUsage (some stats)).1 = 0 ∧
      (s.getTotalUsage (some stats)).2.usage_history_ = s.usage_history_) ∧
    (∀ (s : WindowsCPU) (idle kernel user : Nat),
      add64 (sub64 kernel s.prev_kernel_time_) (sub64 user s.prev_user_time_) = 0 →
      (s.calculateCPUUsage (some (idle, kernel, user))).1 = 0 ∧
      (s.updateTick (some (idle, kernel, user))).usage_history_ =
        pushHistory s.usage_history_ 0) := by
  constructor
  · intro s stats hlen hzero
    simp only [LinuxCPU.getTotalUsage]
    rw [if_neg (by omega), if_pos hzero]
    simp
  · intro s idle kernel user hzero
    constructor
    · simp only [WindowsCPU.calculateCPUUsage]
      rw [if_neg (by omega)]
    · simp only [WindowsCPU.updateTick, WindowsCPU.updateTickS,
        WindowsCPU.calculateCPUUsage]
      rw [if_neg (by omega)]

/-- Witness for C9 at concrete stalled counters on both backends. -/
theorem C9_witness :
    (LinuxCPU.getTotalUsage ⟨100, 40, [(7 : ℚ)]⟩ (some [60, 0, 0, 40, 0])).1 = 0 ∧
    (LinuxCPU.getTotalUsage ⟨100, 40, [(7 : ℚ)]⟩
      (some [60, 0, 0, 40, 0])).2.usage_history_ = [(7 : ℚ)] ∧
    (WindowsCPU.calculateCPUUsage ⟨5, 5, 5, 0, 0, []⟩ (some (5, 5, 5))).1 = 0 ∧
    (WindowsCPU.updateTick ⟨5, 5, 5, 0, 0, []⟩ (some (5, 5, 5))).usage_history_ =
      pushHistory [] 0 := by
  refine ⟨(C9_zero_delta.1 ⟨100, 40, [(7 : ℚ)]⟩ [60, 0, 0, 40, 0] (by decide) (by decide)).1,
    (C9_zero_delta.1 ⟨100, 40, [(7 : ℚ)]⟩ [60, 0, 0, 40, 0] (by decide) (by decide)).2,
    (C9_zero_delta.2 ⟨5, 5, 5, 0, 0, []⟩ 5 5 5 (by decide)).1,
    (C9_zero_delta.2 ⟨5, 5, 5, 0, 0, []⟩ 5 5 5 (by decide)).2⟩

/-- C2 as stated is violated by the Linux CPU backend: its public query
getTotalUsage mutates the sampler state on the calling thread (LinuxCPU
starts no background thread at all). -/
theorem C2_cex :
    (LinuxCPU.getTotalUsage ⟨0, 0, []⟩ (some [100, 0, 0, 0, 0])).2 ≠
      (⟨0, 0, []⟩ : LinuxCPU) :=
  fun h => absurd (congrArg LinuxCPU.prev_total_ h) (by decide)

/-- C2 amended: the Windows CPU queries, the Linux network rate getters
and the pure history queries copy values out and leave the state
unchanged, but getTotalUsage on the Linux CPU backend mutates the delta
baselines (and the history) on the calling thread. -/
theorem C2_query_frame :
    (∀ s : WindowsCPU, (s.getTotalUsage).2 = s ∧ (s.getHighestUsage).2 = s ∧
      (s.getAverageUsage).2 = s) ∧
    (∀ s : LinuxCPU, (s.getHighestUsage).2 = s ∧ (s.getAverageUsage).2 = s) ∧
    (∀ s : LinuxMemory, (s.getAverageUsage).2 = s) ∧
    (∀ s : LinuxNetwork, (s.getUploadRate).2 = s ∧ (s.getDownloadRate).2 = s ∧
      (s.getTotalUsedBandwidth).2 = s) ∧
    (∀ (s : LinuxCPU) (stats : List Nat), 5 ≤ stats.length →
      (s.getTotalUsage (some stats)).2.prev_total_ = cpuTotal stats ∧
      (s.getTotalUsage (some stats)).2.prev_idle_ = cpuIdle stats) := by
  refine ⟨?_, ?_, ?_, ?_, ?_⟩
  · intro s
    refine ⟨rfl, rfl, ?_⟩
    simp only [WindowsCPU.getAverageUsage]
    split <;> rfl
  · intro s
    constructor
    · rcases s with ⟨pt, pi, h⟩
      cases h <;> rfl
    · simp only [LinuxCPU.getAverageUsage]
      split <;> rfl
  · intro s
    simp only [LinuxMemory.getAverageUsage]
    split <;> rfl
  · intro s
    exact ⟨rfl, rfl, rfl⟩
  · exact getTotalUsage_prev

/-- Witness for C2 at a concrete state and sample, showing where the
baselines land after the mutating query. -/
theorem C2_witness :
    (LinuxCPU.getTotalUsage ⟨0, 0, []⟩ (some [100, 0, 0, 0, 0])).2.prev_total_ =
      cpuTotal [100, 0, 0, 0, 0] ∧
    (LinuxCPU.getTotalUsage ⟨0, 0, []⟩ (some [100, 0, 0, 0, 0])).2.prev_idle_ =
      cpuIdle [100, 0, 0, 0, 0] :=
  C2_query_frame.2.2.2.2 ⟨0, 0, []⟩ [100, 0, 0, 0, 0] (by decide)

/-- C3 as stated is violated by the Linux CPU backend: two successive
getTotalUsage calls with identical counter input return different
values, because the first call advances the delta baseline. -/
theorem C3_cex :
    ((LinuxCPU.getTotalUsage ⟨0, 0, []⟩ (some [100, 0, 0, 50, 0])).2.getTotalUsage
        (some [100, 0, 0, 50, 0])).1 ≠
      (LinuxCPU.getTotalUsage ⟨0, 0, []⟩ (some [100, 0, 0, 50, 0])).1 := by
  norm_num [LinuxCPU.getTotalUsage, cpuIdle, cpuTotal, sum64, add64, sub64, u64,
    pushHistory]

/-- C3 amended: queries that read only sampler state are idempotent, and
the Linux memory usage query returns the same value when re-invoked with
unchanged meminfo, but an immediate repeat of the Linux CPU usage query
with unchanged counters always returns 0. -/
theorem C3_repeat_query :
    (∀ (s : LinuxCPU) (input : Option (List Nat)),
      ((s.getTotalUsage input).2.getTotalUsage input).1 = 0) ∧
    (∀ (s : LinuxMemory) (input : Option MemInfo),
      ((s.getTotalUsage input).2.getTotalUsage input).1 = (s.getTotalUsage input).1) ∧
    (∀ s : WindowsCPU, ((s.getTotalUsage).2.getTotalUsage).1 = (s.getTotalUsage).1 ∧
      ((s.getHighestUsage).2.getHighestUsage).1 = (s.getHighestUsage).1) ∧
    (∀ s : LinuxCPU,
      ((s.getHighestUsage).2.getHighestUsage).1 = (s.getHighestUsage).1 ∧
      ((s.getAverageUsage).2.getAverageUsage).1 = (s.getAverageUsage).1) := by
  refine ⟨?_, ?_, ?_, ?_⟩
  · intro s input
    cases input with
    | none => rfl
    | some stats =>
      by_cases hlen : stats.length < 5
      · simp [LinuxCPU.getTotalUsage, hlen]
      · have hprev := (getTotalUsage_prev s stats (by omega)).1
        generalize hs1 : (s.getTotalUsage (some stats)).2 = s1 at hprev
        simp only [LinuxCPU.getTotalUsage]
        rw [if_neg hlen, hprev, sub64_self, if_pos rfl]
  · intro s input
    cases input with
    | none => rfl
    | some m =>
      by_cases hval : m.mem_total = 0 || m.mem_available = 0
      · simp [LinuxMemory.getTotalUsage, LinuxMemory.readMemInfo, hval]
      · simp [LinuxMemory.getTotalUsage, LinuxMemory.readMemInfo,
          LinuxMemory.updateUsageHistory, hval, pushHistory_getLastD,
          pushHistory_getLast_getD]
  · intro s
    exact ⟨rfl, rfl⟩
  · intro s
    constructor
    · rcases s with ⟨pt, pi, h⟩
      cases h <;> rfl
    · simp only [LinuxCPU.getAverageUsage]
      split <;> rfl

/-- C6 as stated is violated on both backends: among processes tied for
the maximum resident-set size the scan keeps the one encountered first,
not last. -/
theorem C6_cex :
    (LinuxMemory.getMostUsingProcess ⟨0, 0, 0, 0, 0, [], []⟩ false
        (some [("a", 5), ("b", 5)])).1 = some ("a", 5) ∧
    (LinuxMemory.getMostUsingProcess ⟨0, 0, 0, 0, 0, [], []⟩ false
        (some [("a", 5), ("b", 5)])).1 ≠ some ("b", 5) ∧
    WindowsMemory.getMostUsingProcess [("a", 5), ("b", 5)] = "a" ∧
    WindowsMemory.getMostUsingProcess [("a", 5), ("b", 5)] ≠ "b" :=
  ⟨by decide, by decide, by decide, by decide⟩

/-- C6 amended: both backends select a process whose resident-set size is
maximal among the scanned processes, and among tied maxima the process
encountered first during the scan wins (on Windows, with the Unknown
placeholder at size 0 standing in front of the scan). -/
theorem C6_top_process_first :
    (∀ (s : LinuxMemory) (x : String × Nat) (xs : List (String × Nat)),
      (s.getMostUsingProcess false (some (x :: xs))).1 =
        firstWithRss (rssMax (x :: xs)) (x :: xs)) ∧
    (∀ procs : List (String × Nat),
      WindowsMemory.getMostUsingProcess procs =
        ((firstWithRss (rssMax (("Unknown", 0) :: procs))
          (("Unknown", 0) :: procs)).getD ("Unknown", 0)).1) := by
  constructor
  · intro s x xs
    have h := foldl_scan_first xs x
    simpa [LinuxMemory.getMostUsingProcess, LinuxMemory.readProcessMemoryUsage,
      maxElementByRss] using h
  · intro procs
    have h := foldl_scan_first procs ("Unknown", 0)
    rw [← h]
    simp [WindowsMemory.getMostUsingProcess]

/-- C1 as stated is violated by the Linux CPU backend: its
getHighestUsage is the maximum of the current 100-sample window, so a
session whose only nonzero sample is evicted makes the reported highest
usage drop from 100 to 0 across one record operation, and the final
value undercuts a previously recorded sample. -/
theorem C1_cex :
    ((LinuxCPU.runTicks ⟨0, 0, []⟩ (cptInputs 100)).getHighestUsage).1 = 100 ∧
    ((LinuxCPU.runTicks ⟨0, 0, []⟩ (cptInputs 101)).getHighestUsage).1 = 0 := by
  constructor
  · rw [cptRun 100 (by omega) (by omega)]
    show (List.replicate 99 (0 : ℚ)).foldl max 100 = 100
    exact foldl_max_replicate_zero 99 100 (by norm_num)
  · rw [cpt101]
    show (List.replicate 99 (0 : ℚ)).foldl max 0 = 0
    exact foldl_max_replicate_zero 99 0 le_rfl

/-- C1 amended: on the Windows backend the highest-usage query is
non-decreasing across any sequence of update ticks and bounds every
sample recorded during the run, independently of history eviction; on
the Linux backend the query only bounds the samples still inside the
current history window. -/
theorem C1_highest_usage :
    (∀ (s : WindowsCPU) (inputs : List (Option (Nat × Nat × Nat))),
      (s.getHighestUsage).1 ≤ ((WindowsCPU.runTicks s inputs).2.getHighestUsage).1) ∧
    (∀ (s : WindowsCPU) (inputs : List (Option (Nat × Nat × Nat))) (v : ℚ),
      v ∈ (WindowsCPU.runTicks s inputs).1 →
      v ≤ ((WindowsCPU.runTicks s inputs).2.getHighestUsage).1) ∧
    (∀ (s : LinuxCPU) (v : ℚ), v ∈ s.usage_history_ → v ≤ (s.getHighestUsage).1) := by
  refine ⟨?_, ?_, ?_⟩
  · intro s inputs
    exact runTicks_highest_le inputs s
  · intro s inputs v hv
    exact runTicks_samples_le inputs s v hv
  · intro s v hv
    rcases s with ⟨pt, pi, h⟩
    cases h with
    | nil => cases hv
    | cons x xs =>
      simp only [LinuxCPU.getHighestUsage]
      rcases List.mem_cons.mp hv with h | h
      · subst h
        exact foldl_max_init_le xs v
      · exact foldl_max_mem_le xs x v h

/-- Witness for C1 at a singleton Linux history and a one-tick Windows
run. -/
theorem C1_witness :
    (5 : ℚ) ∈ (⟨0, 0, [(5 : ℚ)]⟩ : LinuxCPU).usage_history_ ∧
    (5 : ℚ) ≤ ((⟨0, 0, [(5 : ℚ)]⟩ : LinuxCPU).getHighestUsage).1 ∧
    (0 : ℚ) ∈ (WindowsCPU.runTicks ⟨0, 0, 0, 0, 0, []⟩ [some (0, 0, 0)]).1 ∧
    (0 : ℚ) ≤ ((WindowsCPU.runTicks ⟨0, 0, 0, 0, 0, []⟩
      [some (0, 0, 0)]).2.getHighestUsage).1 :=
  ⟨by decide, C1_highest_usage.2.2 _ 5 (by decide), by decide,
    C1_highest_usage.2.1 _ _ 0 (by decide)⟩

/-- Witness for C5 at a concrete estimator state. -/
theorem C5_witness :
    (LinuxNetwork.updateRatesTick ⟨"", 0, 3145728, 0, 0, 0, 0⟩ 1000).download_rate = 3 ∧
    (LinuxNetwork.updateRatesTick ⟨"", 0, 3145728, 0, 0, 0, 0⟩ 1000).upload_rate = 0 ∧
    (LinuxNetwork.updateRatesTick ⟨"", 0, 3145728, 0, 0, 0, 0⟩ 1000).bytes_received = 0 ∧
    (LinuxNetwork.updateRatesTick ⟨"", 0, 3145728, 0, 0, 0, 0⟩ 1000).bytes_sent = 0 :=
  C5_rate_tick ⟨"", 0, 3145728, 0, 0, 0, 0⟩ rfl rfl

end RMS
